import Mathlib

/-!
Verification of the bi-market-intelligence metrics/alerting pipeline.

Shallow embedding of the Python source:
  * `backend/app/analytics/engine.py`  — heat index scorer, alert evaluator
  * `backend/app/tasks/celery_app.py`  — listing reconciler, metric aggregator,
    retention sweeper
  * `backend/app/models.py`            — data model and unique constraints
  * `backend/app/config.py`            — alert thresholds

Python floats are modelled as exact rationals; Python `round` (banker's
rounding) is modelled exactly; fallible computations (ZeroDivisionError,
KeyError, unique-constraint violations) return `Except`/`Option`.
-/

namespace BIMarket

/-- Python 3 `round` to an integer: round half to even (banker's rounding),
modelled on exact rationals. -/
def pyRound (x : ℚ) : ℤ :=
  if x - ⌊x⌋ < 1/2 then ⌊x⌋
  else if 1/2 < x - ⌊x⌋ then ⌊x⌋ + 1
  else if ⌊x⌋ % 2 = 0 then ⌊x⌋ else ⌊x⌋ + 1

/-- Python `round(x, d)`: round to `d` decimal digits. -/
def roundTo (d : ℕ) (x : ℚ) : ℚ :=
  (pyRound (x * 10 ^ d) : ℚ) / 10 ^ d

/-- `compute_heat_index` from `backend/app/analytics/engine.py` (lines 145-175).
The saturation division `active_listings / area_capacity` is Python true
division; the pipeline always calls this with the default capacity 500, so the
denominator is nonzero there. -/
def compute_heat_index (velocity_ratio price_change_pct : ℚ)
    (active_listings : ℚ) (area_capacity : ℚ := 500) : ℚ :=
  let velocity_score := min 40 ((velocity_ratio - 1/2) * 40)
  let price_score := min 40 (max 0 (20 + price_change_pct * 4))
  let saturation := min 1 (active_listings / area_capacity)
  let demand_score := (1 - saturation) * 20
  let heat := velocity_score + price_score + demand_score
  roundTo 1 (max 0 (min 100 heat))

/-- The heat-index formula exactly as claim C2 words it: velocity component
clamped on both sides, `clamp(0, 40, (velocity_ratio - 0.5) * 40)`, and the
result `clamp(0, 100, round(sum, 1))`. -/
def heatIndexClaimC2 (velocity_ratio price_change_pct : ℚ)
    (active_listings : ℚ) (area_capacity : ℚ := 500) : ℚ :=
  let velocity_score := max 0 (min 40 ((velocity_ratio - 1/2) * 40))
  let price_score := min 40 (max 0 (20 + price_change_pct * 4))
  let saturation := min 1 (active_listings / area_capacity)
  let demand_score := (1 - saturation) * 20
  max 0 (min 100 (roundTo 1 (velocity_score + price_score + demand_score)))

/-- The amended composite formula: identical to the claim except that the
velocity component is only capped above at 40 (`min(40, ...)`, no lower
clamp), exactly as the source computes it. -/
def heatIndexAmended (velocity_ratio price_change_pct : ℚ)
    (active_listings : ℚ) (area_capacity : ℚ := 500) : ℚ :=
  let velocity_score := min 40 ((velocity_ratio - 1/2) * 40)
  let price_score := min 40 (max 0 (20 + price_change_pct * 4))
  let saturation := min 1 (active_listings / area_capacity)
  let demand_score := (1 - saturation) * 20
  max 0 (min 100 (roundTo 1 (velocity_score + price_score + demand_score)))

/- ### Rounding lemmas -/

lemma pyRound_floor_le (x : ℚ) : ⌊x⌋ ≤ pyRound x := by
  unfold pyRound
  split_ifs <;> omega

lemma pyRound_le_floor_add_one (x : ℚ) : pyRound x ≤ ⌊x⌋ + 1 := by
  unfold pyRound
  split_ifs <;> omega

lemma pyRound_le_of_le {x y : ℚ} (h : x ≤ y) : pyRound x ≤ pyRound y := by
  have hf : ⌊x⌋ ≤ ⌊y⌋ := Int.floor_le_floor h
  rcases lt_or_eq_of_le hf with hlt | heq
  · have h1 := pyRound_le_floor_add_one x
    have h2 := pyRound_floor_le y
    omega
  · have hfx : (⌊x⌋ : ℚ) = (⌊y⌋ : ℚ) := by exact_mod_cast heq
    unfold pyRound
    rw [← heq, ← hfx] at *
    split_ifs <;> first | omega | linarith

lemma pyRound_intCast (n : ℤ) : pyRound (n : ℚ) = n := by
  unfold pyRound
  simp

/-- Evaluation helper: `pyRound x = f` when `f ≤ x < f + 1/2`. -/
lemma pyRound_low {x : ℚ} {f : ℤ} (hle : (f : ℚ) ≤ x) (hlt : x - f < 1/2) :
    pyRound x = f := by
  have hf : ⌊x⌋ = f := Int.floor_eq_iff.mpr ⟨hle, by linarith⟩
  unfold pyRound
  rw [hf, if_pos hlt]

/-- Evaluation helper: `pyRound x = f + 1` when `f + 1/2 < x < f + 1`. -/
lemma pyRound_high {x : ℚ} {f : ℤ} (hle : (f : ℚ) ≤ x) (hlt : x < f + 1)
    (hgt : 1/2 < x - f) : pyRound x = f + 1 := by
  have hf : ⌊x⌋ = f := Int.floor_eq_iff.mpr ⟨hle, by linarith⟩
  unfold pyRound
  rw [hf, if_neg (by linarith), if_pos hgt]

lemma roundTo_intCast (d : ℕ) (n : ℤ) : roundTo d (n : ℚ) = n := by
  unfold roundTo
  have h : ((n : ℚ)) * 10 ^ d = ((n * 10 ^ d : ℤ) : ℚ) := by push_cast; ring
  rw [h, pyRound_intCast]
  have hp : ((10 : ℚ)) ^ d ≠ 0 := by positivity
  push_cast
  field_simp

lemma roundTo_le_of_le (d : ℕ) {x y : ℚ} (h : x ≤ y) : roundTo d x ≤ roundTo d y := by
  unfold roundTo
  have hp : (0 : ℚ) < 10 ^ d := by positivity
  have hm : x * 10 ^ d ≤ y * 10 ^ d := mul_le_mul_of_nonneg_right h (le_of_lt hp)
  have hr := pyRound_le_of_le hm
  gcongr

lemma roundTo_zero (d : ℕ) : roundTo d 0 = 0 := by
  have := roundTo_intCast d 0
  simpa using this

lemma roundTo_nonneg {x : ℚ} (h : 0 ≤ x) (d : ℕ) : 0 ≤ roundTo d x := by
  have h2 := roundTo_le_of_le d h
  rwa [roundTo_zero] at h2

lemma roundTo_le_hundred {x : ℚ} (h : x ≤ 100) : roundTo 1 x ≤ 100 := by
  have h2 := roundTo_le_of_le 1 h
  have h3 : roundTo 1 (((100 : ℤ) : ℚ)) = ((100 : ℤ) : ℚ) := roundTo_intCast 1 100
  norm_num at h3
  rwa [h3] at h2

/-- C1: with the default area capacity of 500, any velocity ratio and price
change and a nonnegative active-listing count, the heat index lies in
[0, 100]. -/
theorem heat_index_bounded (v p a : ℚ) (ha : 0 ≤ a) :
    0 ≤ compute_heat_index v p a 500 ∧ compute_heat_index v p a 500 ≤ 100 := by
  clear ha
  unfold compute_heat_index
  refine ⟨roundTo_nonneg (le_max_left 0 _) 1, roundTo_le_hundred (max_le (by norm_num) (min_le_left _ _))⟩

/-- Witness for C1 at velocity_ratio 2, price_change_pct 3, 10 active
listings. -/
theorem heat_index_bounded_witness :
    0 ≤ compute_heat_index 2 3 10 500 ∧ compute_heat_index 2 3 10 500 ≤ 100 :=
  heat_index_bounded 2 3 10 (by norm_num)

lemma roundTo_one_hundred : roundTo 1 (100 : ℚ) = 100 := by
  have h := roundTo_intCast 1 100
  norm_num at h
  exact h

lemma roundTo_twenty : roundTo 1 (20 : ℚ) = 20 := by
  have h := roundTo_intCast 1 20
  norm_num at h
  exact h

/-- Clamping to [0, 100] commutes with rounding to one decimal, because
rounding is monotone and fixes 0 and 100. -/
lemma roundTo_clamp_comm (x : ℚ) :
    roundTo 1 (max 0 (min 100 x)) = max 0 (min 100 (roundTo 1 x)) := by
  rcases le_total x 0 with hx | hx
  · rw [min_eq_right (by linarith : x ≤ (100:ℚ)), max_eq_left hx, roundTo_zero]
    have h3 : roundTo 1 x ≤ 0 := by
      have h4 := roundTo_le_of_le 1 hx
      rwa [roundTo_zero] at h4
    rw [min_eq_right (by linarith : roundTo 1 x ≤ (100:ℚ)), max_eq_left h3]
  · rcases le_total x 100 with hx2 | hx2
    · rw [min_eq_right hx2, max_eq_right hx]
      rw [min_eq_right (roundTo_le_hundred hx2), max_eq_right (roundTo_nonneg hx 1)]
    · rw [min_eq_left hx2, max_eq_right (by norm_num : (0:ℚ) ≤ 100), roundTo_one_hundred]
      have r100 : 100 ≤ roundTo 1 x := by
        have h5 := roundTo_le_of_le 1 hx2
        rwa [roundTo_one_hundred] at h5
      rw [min_eq_left r100, max_eq_right (by linarith : (0:ℚ) ≤ 100)]

/-- C2 counterexample: at velocity_ratio 0, price_change_pct 0 and 500 active
listings (capacity 500) the code returns 0.0, while the claimed formula (with
the velocity component clamped below at 0) gives 20.0: the code has no lower
clamp on the velocity component. -/
theorem heat_index_claim_c2_false :
    compute_heat_index 0 0 500 500 ≠ heatIndexClaimC2 0 0 500 500 := by
  have e1 : compute_heat_index 0 0 500 500 = 0 := by
    unfold compute_heat_index
    norm_num
    exact roundTo_zero 1
  have e2 : heatIndexClaimC2 0 0 500 500 = 20 := by
    unfold heatIndexClaimC2
    norm_num
    rw [roundTo_twenty]
    norm_num
  rw [e1, e2]
  norm_num

/-- C2 amended: `compute_heat_index` equals the composite formula in which the
velocity component is `min(40, (velocity_ratio - 0.5) * 40)` — capped above at
40 only, with no lower clamp — while the price component is clamped to
[0, 40], the demand component is `(1 - min(1, active/capacity)) * 20`, and the
result is `clamp(0, 100, round(sum, 1))`. -/
theorem heat_index_amended_formula (v p a c : ℚ) :
    compute_heat_index v p a c = heatIndexAmended v p a c := by
  unfold compute_heat_index heatIndexAmended
  exact roundTo_clamp_comm _

/-- C7: holding the other inputs fixed (default capacity 500), the heat index
is monotone non-decreasing in velocity_ratio on [0.5, 1.5], and monotone
non-decreasing in price_change_pct on the linear region [-5, 5] of the price
component. -/
theorem heat_index_monotone (a : ℚ) :
    (∀ p v1 v2, 1/2 ≤ v1 → v1 ≤ v2 → v2 ≤ 3/2 →
      compute_heat_index v1 p a 500 ≤ compute_heat_index v2 p a 500) ∧
    (∀ v p1 p2, -5 ≤ p1 → p1 ≤ p2 → p2 ≤ 5 →
      compute_heat_index v p1 a 500 ≤ compute_heat_index v p2 a 500) := by
  constructor
  · intro p v1 v2 h1 h12 h2
    unfold compute_heat_index
    apply roundTo_le_of_le
    have hv : min 40 ((v1 - 1/2) * 40) ≤ min 40 ((v2 - 1/2) * 40) :=
      min_le_min le_rfl (by linarith)
    exact max_le_max le_rfl (min_le_min le_rfl (by linarith))
  · intro v p1 p2 h1 h12 h2
    unfold compute_heat_index
    apply roundTo_le_of_le
    have hp : min 40 (max 0 (20 + p1 * 4)) ≤ min 40 (max 0 (20 + p2 * 4)) :=
      min_le_min le_rfl (max_le_max le_rfl (by linarith))
    exact max_le_max le_rfl (min_le_min le_rfl (by linarith))

/-- Witness for C7: velocity part at (0.5, 1), price part at (-1, 1). -/
theorem heat_index_monotone_witness :
    compute_heat_index (1/2) 0 0 500 ≤ compute_heat_index 1 0 0 500 ∧
    compute_heat_index 1 (-1) 0 500 ≤ compute_heat_index 1 1 0 500 :=
  ⟨(heat_index_monotone 0).1 0 (1/2) 1 (by norm_num) (by norm_num) (by norm_num),
   (heat_index_monotone 0).2 1 (-1) 1 (by norm_num) (by norm_num) (by norm_num)⟩

/- ### Alert evaluator (`check_and_create_alerts`, engine.py lines 209-262) -/

/-- `AlertType` enum from `models.py`. -/
inductive AlertType where
  | PRICE_SURGE | PRICE_DROP | VELOCITY_SPIKE | HIGH_HEAT_INDEX
  | NEW_COMPETITOR | LISTING_FLOOD
deriving DecidableEq, Repr

/-- `AlertSeverity` enum from `models.py`. -/
inductive AlertSeverity where
  | INFO | WARNING | CRITICAL
deriving DecidableEq, Repr

/-- An `Alert` row restricted to the fields the evaluator sets from the
metrics (title/description are display strings interpolating the same
values and are not modelled). -/
structure Alert where
  alert_type : AlertType
  severity : AlertSeverity
  area : String
  metric_value : ℚ
  threshold_value : ℚ
deriving DecidableEq, Repr

/-- The `metrics` dict passed to `check_and_create_alerts`: a field is `none`
when the key is missing. The code treats a present-but-`None`
`price_change_pct` identically to a missing key (`metrics.get(...) is not
None`), so both map to `none`. -/
structure MetricsBundle where
  price_change_pct : Option ℚ
  velocity_ratio : Option ℚ
  heat_index : Option ℚ
deriving DecidableEq, Repr

/-- The alert thresholds from `config.py` `Settings`. -/
structure AlertSettings where
  PRICE_CHANGE_ALERT_PCT : ℚ
  VELOCITY_SPIKE_THRESHOLD : ℚ
  HEAT_INDEX_HIGH_THRESHOLD : ℚ
deriving DecidableEq, Repr

/-- Defaults: 5.0, 1.5, 75.0. -/
def defaultSettings : AlertSettings :=
  { PRICE_CHANGE_ALERT_PCT := 5
    VELOCITY_SPIKE_THRESHOLD := 3/2
    HEAT_INDEX_HIGH_THRESHOLD := 75 }

/-- Price rule (engine.py lines 214-229): fires when the key is present and
`abs(pct) >= PRICE_CHANGE_ALERT_PCT`. -/
def priceAlerts (s : AlertSettings) (area : String) (m : MetricsBundle) :
    List Alert :=
  match m.price_change_pct with
  | some pct =>
      if s.PRICE_CHANGE_ALERT_PCT ≤ |pct| then
        [{ alert_type := if 0 < pct then .PRICE_SURGE else .PRICE_DROP
           severity := if 10 ≤ |pct| then .CRITICAL else .WARNING
           area := area
           metric_value := pct
           threshold_value := s.PRICE_CHANGE_ALERT_PCT }]
      else []
  | none => []

/-- Velocity rule (engine.py lines 232-243): the guard reads
`metrics.get("velocity_ratio", 1.0)`, but the alert body reads
`metrics["velocity_ratio"]` directly — a KeyError (modelled as
`Except.error`) if the rule fires with the key missing. -/
def velocityAlertsE (s : AlertSettings) (area : String) (m : MetricsBundle) :
    Except Unit (List Alert) :=
  if s.VELOCITY_SPIKE_THRESHOLD ≤ m.velocity_ratio.getD 1 then
    match m.velocity_ratio with
    | some v =>
        .ok [{ alert_type := .VELOCITY_SPIKE
               severity := .WARNING
               area := area
               metric_value := v
               threshold_value := s.VELOCITY_SPIKE_THRESHOLD }]
    | none => .error ()
  else .ok []

/-- Heat rule (engine.py lines 246-257): guard reads
`metrics.get("heat_index", 0)`, the body reads `metrics["heat_index"]`. -/
def heatAlertsE (s : AlertSettings) (area : String) (m : MetricsBundle) :
    Except Unit (List Alert) :=
  if s.HEAT_INDEX_HIGH_THRESHOLD ≤ m.heat_index.getD 0 then
    match m.heat_index with
    | some h =>
        .ok [{ alert_type := .HIGH_HEAT_INDEX
               severity := .WARNING
               area := area
               metric_value := h
               threshold_value := s.HEAT_INDEX_HIGH_THRESHOLD }]
    | none => .error ()
  else .ok []

/-- `check_and_create_alerts` (engine.py lines 209-262): the three rules run
in order; an exception in an earlier rule aborts the call. -/
def check_and_create_alerts (s : AlertSettings) (area : String)
    (m : MetricsBundle) : Except Unit (List Alert) :=
  match velocityAlertsE s area m with
  | .error e => .error e
  | .ok vs =>
      match heatAlertsE s area m with
      | .error e => .error e
      | .ok hs => .ok (priceAlerts s area m ++ vs ++ hs)

/-- The alert list of a normal return (`[]` on an exception). -/
def runAlerts (s : AlertSettings) (area : String) (m : MetricsBundle) :
    List Alert :=
  match check_and_create_alerts s area m with
  | .ok l => l
  | .error _ => []

/-- Bool predicate: is this a price-rule alert? -/
def isPriceAlert (a : Alert) : Bool :=
  decide (a.alert_type = .PRICE_SURGE) || decide (a.alert_type = .PRICE_DROP)

/-- C8: under the default thresholds the price rule fires iff
`price_change_pct` is present with absolute value ≥ 5; when it fires it emits
exactly one alert with type PRICE_SURGE for a positive value and PRICE_DROP
for a negative one, severity CRITICAL iff the absolute value is ≥ 10 (else
WARNING), and `metric_value` equal to the triggering value; and on any normal
return of `check_and_create_alerts` the price-rule alerts of the result are
exactly these. -/
theorem price_rule_spec (area : String) (m : MetricsBundle) :
    (priceAlerts defaultSettings area m ≠ [] ↔
      ∃ pct, m.price_change_pct = some pct ∧ 5 ≤ |pct|) ∧
    (∀ pct, m.price_change_pct = some pct → 5 ≤ |pct| →
      priceAlerts defaultSettings area m =
        [{ alert_type := if 0 < pct then .PRICE_SURGE else .PRICE_DROP
           severity := if 10 ≤ |pct| then .CRITICAL else .WARNING
           area := area
           metric_value := pct
           threshold_value := 5 }]) ∧
    (∀ l, check_and_create_alerts defaultSettings area m = .ok l →
      l.filter isPriceAlert = priceAlerts defaultSettings area m) := by
  refine ⟨⟨?_, ?_⟩, ?_, ?_⟩
  · intro hne
    rcases hm : m.price_change_pct with _ | pct
    · simp [priceAlerts, hm] at hne
    · by_cases hth : (5:ℚ) ≤ |pct|
      · exact ⟨pct, rfl, hth⟩
      · exfalso
        apply hne
        simp [priceAlerts, hm, defaultSettings, hth]
  · rintro ⟨pct, hm, hth⟩
    simp [priceAlerts, hm, defaultSettings, hth]
  · intro pct hm hth
    simp only [priceAlerts, hm, defaultSettings]
    rw [if_pos hth]
  · intro l hl
    have hvs : ∀ vs, velocityAlertsE defaultSettings area m = .ok vs →
        vs.filter isPriceAlert = [] := by
      intro vs hv
      unfold velocityAlertsE at hv
      split at hv
      · rcases hmv : m.velocity_ratio with _ | v <;> rw [hmv] at hv
        · exact absurd hv (by simp)
        · simp only [Except.ok.injEq] at hv
          subst hv
          simp [isPriceAlert]
      · simp only [Except.ok.injEq] at hv
        subst hv
        simp
    have hhs : ∀ hs, heatAlertsE defaultSettings area m = .ok hs →
        hs.filter isPriceAlert = [] := by
      intro hs hh
      unfold heatAlertsE at hh
      split at hh
      · rcases hmh : m.heat_index with _ | hq <;> rw [hmh] at hh
        · exact absurd hh (by simp)
        · simp only [Except.ok.injEq] at hh
          subst hh
          simp [isPriceAlert]
      · simp only [Except.ok.injEq] at hh
        subst hh
        simp
    have hps : (priceAlerts defaultSettings area m).filter isPriceAlert =
        priceAlerts defaultSettings area m := by
      rcases hm : m.price_change_pct with _ | pct
      · simp [priceAlerts, hm]
      · by_cases hth : defaultSettings.PRICE_CHANGE_ALERT_PCT ≤ |pct|
        · simp only [priceAlerts, hm, if_pos hth]
          have hpa : isPriceAlert
              { alert_type := if 0 < pct then AlertType.PRICE_SURGE else AlertType.PRICE_DROP
                severity := if 10 ≤ |pct| then AlertSeverity.CRITICAL else AlertSeverity.WARNING
                area := area
                metric_value := pct
                threshold_value := defaultSettings.PRICE_CHANGE_ALERT_PCT } = true := by
            simp only [isPriceAlert]
            split <;> simp
          simp [hpa]
        · simp [priceAlerts, hm, hth]
    unfold check_and_create_alerts at hl
    rcases hv : velocityAlertsE defaultSettings area m with _ | vs <;> rw [hv] at hl
    · exact absurd hl (by simp)
    · rcases hh : heatAlertsE defaultSettings area m with _ | hs <;> rw [hh] at hl
      · exact absurd hl (by simp)
      · simp only [Except.ok.injEq] at hl
        subst hl
        rw [List.filter_append, List.filter_append, hvs vs hv, hhs hs hh, hps,
          List.append_nil, List.append_nil]

/-- Witness for C8: the spec's example — price_change_pct = 12.0 yields one
PRICE_SURGE, CRITICAL alert with metric_value 12.0. -/
theorem price_rule_spec_witness :
    priceAlerts defaultSettings "Dubai Marina" ⟨some 12, some 1, some 50⟩ =
      [{ alert_type := .PRICE_SURGE
         severity := .CRITICAL
         area := "Dubai Marina"
         metric_value := 12
         threshold_value := 5 }] := by
  have h := (price_rule_spec "Dubai Marina" ⟨some 12, some 1, some 50⟩).2.1 12 rfl
    (by norm_num)
  rw [h]
  norm_num

/-- Bool predicate: velocity-spike alert. -/
def isSpikeAlert (a : Alert) : Bool := decide (a.alert_type = .VELOCITY_SPIKE)

/-- Bool predicate: heat-index alert. -/
def isHeatAlert (a : Alert) : Bool := decide (a.alert_type = .HIGH_HEAT_INDEX)

lemma velocityAlertsE_ok (area : String) (m : MetricsBundle) :
    ∃ vs, velocityAlertsE defaultSettings area m = .ok vs := by
  unfold velocityAlertsE
  rcases hmv : m.velocity_ratio with _ | v
  · exact ⟨[], by rw [if_neg (by norm_num [defaultSettings, Option.getD_none])]⟩
  · by_cases hc : defaultSettings.VELOCITY_SPIKE_THRESHOLD ≤ (Option.some v).getD 1
    · exact ⟨_, by rw [if_pos hc]⟩
    · exact ⟨[], by rw [if_neg hc]⟩

lemma heatAlertsE_ok (area : String) (m : MetricsBundle) :
    ∃ hs, heatAlertsE defaultSettings area m = .ok hs := by
  unfold heatAlertsE
  rcases hmh : m.heat_index with _ | h
  · exact ⟨[], by rw [if_neg (by norm_num [defaultSettings, Option.getD_none])]⟩
  · by_cases hc : defaultSettings.HEAT_INDEX_HIGH_THRESHOLD ≤ (Option.some h).getD 0
    · exact ⟨_, by rw [if_pos hc]⟩
    · exact ⟨[], by rw [if_neg hc]⟩

lemma velocityAlerts_spike_only {area : String} {m : MetricsBundle}
    {vs : List Alert} (hv : velocityAlertsE defaultSettings area m = .ok vs) :
    ∀ a ∈ vs, a.alert_type = AlertType.VELOCITY_SPIKE := by
  unfold velocityAlertsE at hv
  split at hv
  · rcases hmv : m.velocity_ratio with _ | v <;> rw [hmv] at hv
    · exact absurd hv (by simp)
    · simp only [Except.ok.injEq] at hv
      subst hv
      simp
  · simp only [Except.ok.injEq] at hv
    subst hv
    simp

lemma heatAlerts_heat_only {area : String} {m : MetricsBundle}
    {hs : List Alert} (hh : heatAlertsE defaultSettings area m = .ok hs) :
    ∀ a ∈ hs, a.alert_type = AlertType.HIGH_HEAT_INDEX := by
  unfold heatAlertsE at hh
  split at hh
  · rcases hmh : m.heat_index with _ | hq <;> rw [hmh] at hh
    · exact absurd hh (by simp)
    · simp only [Except.ok.injEq] at hh
      subst hh
      simp
  · simp only [Except.ok.injEq] at hh
    subst hh
    simp

lemma priceAlerts_price_only (s : AlertSettings) (area : String)
    (m : MetricsBundle) :
    ∀ a ∈ priceAlerts s area m,
      a.alert_type = AlertType.PRICE_SURGE ∨ a.alert_type = AlertType.PRICE_DROP := by
  intro a ha
  unfold priceAlerts at ha
  rcases hm : m.price_change_pct with _ | pct <;> simp only [hm] at ha
  · simp at ha
  · split at ha
    · rw [List.mem_singleton] at ha
      subst ha
      by_cases h0 : 0 < pct
      · exact Or.inl (by simp [h0])
      · exact Or.inr (by simp [h0])
    · simp at ha

/-- C10: under the default thresholds, `check_and_create_alerts` degrades
safely on missing keys: the call returns normally (no KeyError), a missing
velocity_ratio defaults to 1.0 so no VELOCITY_SPIKE alert is produced, a
missing heat_index defaults to 0 so no HIGH_HEAT_INDEX alert is produced, and
a missing (or present-`None`) price_change_pct produces no price alert. -/
theorem check_alerts_missing_keys (area : String) (m : MetricsBundle) :
    check_and_create_alerts defaultSettings area m =
      Except.ok (runAlerts defaultSettings area m) ∧
    (m.velocity_ratio = none →
      (runAlerts defaultSettings area m).filter isSpikeAlert = []) ∧
    (m.heat_index = none →
      (runAlerts defaultSettings area m).filter isHeatAlert = []) ∧
    (m.price_change_pct = none →
      (runAlerts defaultSettings area m).filter isPriceAlert = []) := by
  obtain ⟨vs, hv⟩ := velocityAlertsE_ok area m
  obtain ⟨hs, hh⟩ := heatAlertsE_ok area m
  have hcheck : check_and_create_alerts defaultSettings area m =
      .ok (priceAlerts defaultSettings area m ++ vs ++ hs) := by
    unfold check_and_create_alerts
    rw [hv, hh]
  have hrun : runAlerts defaultSettings area m =
      priceAlerts defaultSettings area m ++ vs ++ hs := by
    unfold runAlerts
    rw [hcheck]
  have hpfilter : ∀ (p : Alert → Bool),
      (∀ a ∈ priceAlerts defaultSettings area m ++ vs ++ hs, p a = false) →
      (runAlerts defaultSettings area m).filter p = [] := by
    intro p hall
    rw [hrun]
    exact List.filter_eq_nil_iff.mpr (by intro a ha; simp [hall a ha])
  refine ⟨by rw [hcheck, hrun], ?_, ?_, ?_⟩
  · intro hmv
    have hvs : vs = [] := by
      unfold velocityAlertsE at hv
      rw [hmv, if_neg (by norm_num [defaultSettings, Option.getD_none])] at hv
      simpa using hv.symm
    apply hpfilter
    intro a ha
    simp only [hvs, List.append_nil] at ha
    rcases List.mem_append.mp ha with hp | hhq
    · rcases priceAlerts_price_only defaultSettings area m a hp with h1 | h1 <;>
        simp [isSpikeAlert, h1]
    · simp [isSpikeAlert, heatAlerts_heat_only hh a hhq]
  · intro hmh
    have hhs : hs = [] := by
      unfold heatAlertsE at hh
      rw [hmh, if_neg (by norm_num [defaultSettings, Option.getD_none])] at hh
      simpa using hh.symm
    apply hpfilter
    intro a ha
    rw [hhs, List.append_nil] at ha
    rcases List.mem_append.mp ha with hp | hvq
    · rcases priceAlerts_price_only defaultSettings area m a hp with h1 | h1 <;>
        simp [isHeatAlert, h1]
    · simp [isHeatAlert, velocityAlerts_spike_only hv a hvq]
  · intro hmp
    apply hpfilter
    intro a ha
    have hpnil : priceAlerts defaultSettings area m = [] := by
      simp [priceAlerts, hmp]
    rw [hpnil, List.nil_append] at ha
    rcases List.mem_append.mp ha with hvq | hhq
    · simp [isPriceAlert, velocityAlerts_spike_only hv a hvq]
    · simp [isPriceAlert, heatAlerts_heat_only hh a hhq]

/-- Witness for C10: all three keys missing — normal return, no alerts from
any rule. -/
theorem check_alerts_missing_keys_witness :
    check_and_create_alerts defaultSettings "Jumeirah" ⟨none, none, none⟩ =
      Except.ok (runAlerts defaultSettings "Jumeirah" ⟨none, none, none⟩) ∧
    (runAlerts defaultSettings "Jumeirah" ⟨none, none, none⟩).filter
      isSpikeAlert = [] ∧
    (runAlerts defaultSettings "Jumeirah" ⟨none, none, none⟩).filter
      isHeatAlert = [] ∧
    (runAlerts defaultSettings "Jumeirah" ⟨none, none, none⟩).filter
      isPriceAlert = [] :=
  ⟨(check_alerts_missing_keys "Jumeirah" ⟨none, none, none⟩).1,
   (check_alerts_missing_keys "Jumeirah" ⟨none, none, none⟩).2.1 rfl,
   (check_alerts_missing_keys "Jumeirah" ⟨none, none, none⟩).2.2.1 rfl,
   (check_alerts_missing_keys "Jumeirah" ⟨none, none, none⟩).2.2.2 rfl⟩

/- ### Listing reconciler (`scrape_all_sources`, celery_app.py lines 55-159) -/

/-- `ListingStatus` enum from `models.py`. -/
inductive ListingStatus where
  | ACTIVE | SOLD | REMOVED | PRICE_REDUCED
deriving DecidableEq, Repr

/-- The content fingerprint: the source builds a SHA-256 over the JSON of
`{id, price, title}` (`ScrapedListing.content_hash`, scrapers/base.py lines
63-70). The hash is modelled as the hashed field tuple itself: deterministic
and injective on the hashed fields (hash collisions are not modelled). -/
abbrev Fingerprint := String × ℤ × String

/-- A normalised scraped listing (`ScrapedListing`, scrapers/base.py),
restricted to the fields the reconciler reads. -/
structure Scraped where
  external_id : String
  title : String
  area : String
  price_aed : ℤ
  price_per_sqft : Option ℚ
deriving DecidableEq, Repr

/-- `ScrapedListing.content_hash`: hash of (external_id, price_aed, title). -/
def contentHash (s : Scraped) : Fingerprint :=
  (s.external_id, s.price_aed, s.title)

/-- A persisted `Listing` row (models.py lines 71-109), restricted to the
fields the pipeline reads or writes. -/
structure Listing where
  competitor_id : ℕ
  external_id : String
  title : String
  area : String
  status : ListingStatus
  price_aed : ℤ
  price_per_sqft : Option ℚ
  content_hash : Fingerprint
  first_seen_at : ℤ
  last_seen_at : ℤ
deriving DecidableEq, Repr

/-- A `PriceHistory` row (models.py lines 112-123); the listing FK is stood
in for by the listing's external_id. -/
structure PriceHistory where
  listing_external_id : String
  old_price_aed : ℤ
  new_price_aed : ℤ
  change_pct : ℚ
deriving DecidableEq, Repr

/-- The dedup key (external_id, competitor_id): the query filter of
celery_app.py lines 92-95. -/
def keyMatches (cid : ℕ) (eid : String) (l : Listing) : Bool :=
  decide (l.competitor_id = cid) && decide (l.external_id = eid)

/-- `db.query(Listing).filter(...).first()`: first row matching the key. -/
def findListing (st : List Listing) (cid : ℕ) (eid : String) : Option Listing :=
  st.find? (keyMatches cid eid)

/-- The ORM mutates the row returned by `.first()`: replace the first row
matching the key. -/
def updateListing (cid : ℕ) (eid : String) (nl : Listing) :
    List Listing → List Listing
  | [] => []
  | l :: rest =>
      if keyMatches cid eid l then nl :: rest
      else l :: updateListing cid eid nl rest

/-- Outcome of a reconciliation: the listing table, the emitted PriceHistory
rows, and the new/updated counters of celery_app.py line 88. -/
structure RecResult where
  store : List Listing
  events : List PriceHistory
  newCount : ℕ
  updatedCount : ℕ
deriving DecidableEq, Repr

/-- Reconcile one scraped record against the listing table (celery_app.py
lines 90-142). `now` stands for `datetime.utcnow()`. The percent-change
division at lines 103-105 has no guard: a stored price of 0 raises
ZeroDivisionError, modelled as `Except.error`. The batch's running counters
are returned per record (0 or 1 each). -/
def reconcileOne (now : ℤ) (cid : ℕ) (st : List Listing) (sc : Scraped) :
    Except Unit RecResult :=
  match findListing st cid sc.external_id with
  | some existing =>
      if existing.content_hash ≠ contentHash sc then
        if existing.price_aed ≠ sc.price_aed then
          if (existing.price_aed : ℚ) = 0 then .error ()
          else
            let change_pct :=
              ((sc.price_aed : ℚ) - (existing.price_aed : ℚ)) /
                (existing.price_aed : ℚ) * 100
            let ev : PriceHistory :=
              { listing_external_id := existing.external_id
                old_price_aed := existing.price_aed
                new_price_aed := sc.price_aed
                change_pct := roundTo 2 change_pct }
            let newStatus :=
              if 5 ≤ |change_pct| then
                if change_pct < 0 then ListingStatus.PRICE_REDUCED
                else ListingStatus.ACTIVE
              else existing.status
            let upd := { existing with
              status := newStatus
              price_aed := sc.price_aed
              price_per_sqft := sc.price_per_sqft
              content_hash := contentHash sc
              last_seen_at := now }
            .ok ⟨updateListing cid sc.external_id upd st, [ev], 0, 1⟩
        else
          let upd := { existing with
            price_aed := sc.price_aed
            price_per_sqft := sc.price_per_sqft
            content_hash := contentHash sc
            last_seen_at := now }
          .ok ⟨updateListing cid sc.external_id upd st, [], 0, 1⟩
      else
        let upd := { existing with last_seen_at := now }
        .ok ⟨updateListing cid sc.external_id upd st, [], 0, 0⟩
  | none =>
      let nl : Listing :=
        { competitor_id := cid
          external_id := sc.external_id
          title := sc.title
          area := sc.area
          status := .ACTIVE
          price_aed := sc.price_aed
          price_per_sqft := sc.price_per_sqft
          content_hash := contentHash sc
          first_seen_at := now
          last_seen_at := now }
      .ok ⟨st ++ [nl], [], 1, 0⟩

/-- Reconcile a whole scraped batch in order (the `for scraped in listings`
loop). Changes are visible to later iterations (the ORM session reads its own
writes); an uncaught exception aborts the batch. -/
def reconcileBatch (now : ℤ) (cid : ℕ) (st : List Listing) :
    List Scraped → Except Unit RecResult
  | [] => .ok ⟨st, [], 0, 0⟩
  | sc :: rest =>
      match reconcileOne now cid st sc with
      | .error e => .error e
      | .ok r1 =>
          match reconcileBatch now cid r1.store rest with
          | .error e => .error e
          | .ok r2 =>
              .ok ⟨r2.store, r1.events ++ r2.events,
                   r1.newCount + r2.newCount, r1.updatedCount + r2.updatedCount⟩

/-- C3: when the persisted counterpart of an observed record has a differing
fingerprint and a differing (nonzero) stored price, exactly one PriceHistory
event is emitted, carrying percent change (new − old)/old × 100 rounded to 2
decimals; the status is set to PRICE_REDUCED when the change is ≤ −5% strong
and negative, to ACTIVE when ≥ 5% and positive (so exactly +5.0% gives
ACTIVE), and left unchanged when the absolute change is below 5. -/
theorem reconcile_price_change (now : ℤ) (cid : ℕ) (st : List Listing)
    (sc : Scraped) (existing : Listing)
    (hfind : findListing st cid sc.external_id = some existing)
    (hhash : existing.content_hash ≠ contentHash sc)
    (hprice : existing.price_aed ≠ sc.price_aed)
    (hzero : existing.price_aed ≠ 0) :
    ∃ upd : Listing,
      reconcileOne now cid st sc =
        .ok ⟨updateListing cid sc.external_id upd st,
             [{ listing_external_id := existing.external_id
                old_price_aed := existing.price_aed
                new_price_aed := sc.price_aed
                change_pct := roundTo 2
                  (((sc.price_aed : ℚ) - (existing.price_aed : ℚ)) /
                    (existing.price_aed : ℚ) * 100) }],
             0, 1⟩ ∧
      (5 ≤ |((sc.price_aed : ℚ) - (existing.price_aed : ℚ)) /
              (existing.price_aed : ℚ) * 100| →
        ((sc.price_aed : ℚ) - (existing.price_aed : ℚ)) /
            (existing.price_aed : ℚ) * 100 < 0 →
        upd.status = ListingStatus.PRICE_REDUCED) ∧
      (5 ≤ |((sc.price_aed : ℚ) - (existing.price_aed : ℚ)) /
              (existing.price_aed : ℚ) * 100| →
        0 < ((sc.price_aed : ℚ) - (existing.price_aed : ℚ)) /
              (existing.price_aed : ℚ) * 100 →
        upd.status = ListingStatus.ACTIVE) ∧
      (|((sc.price_aed : ℚ) - (existing.price_aed : ℚ)) /
          (existing.price_aed : ℚ) * 100| < 5 →
        upd.status = existing.status) := by
  have hzq : ¬((existing.price_aed : ℚ) = 0) := by exact_mod_cast hzero
  unfold reconcileOne
  simp only [hfind]
  rw [if_pos hhash, if_pos hprice, if_neg hzq]
  refine ⟨_, rfl, ?_, ?_, ?_⟩
  · intro h1 h2
    simp only [if_pos h1, if_pos h2]
  · intro h1 h2
    simp only [if_pos h1, if_neg (not_lt.mpr (le_of_lt h2))]
  · intro h1
    simp only [if_neg (not_le.mpr h1)]

/-- Concrete store and observation for the C3 witness: stored price 100
(status PRICE_REDUCED), observed price 105 — a change of exactly +5.0%. -/
def recDemoListing : Listing :=
  { competitor_id := 0, external_id := "e1", title := "t", area := "A"
    status := .PRICE_REDUCED, price_aed := 100, price_per_sqft := none
    content_hash := ("e1", 100, "t"), first_seen_at := 0, last_seen_at := 0 }

/-- The observation for the C3 witness. -/
def recDemoScraped : Scraped :=
  { external_id := "e1", title := "t", area := "A", price_aed := 105
    price_per_sqft := none }

/-- Witness for C3: a +5.0% change emits one event with change_pct = 5.0 and
sets the status to ACTIVE (not PRICE_REDUCED). -/
theorem reconcile_price_change_witness :
    ∃ upd : Listing,
      reconcileOne 1 0 [recDemoListing] recDemoScraped =
        .ok ⟨updateListing 0 "e1" upd
              [{ competitor_id := 0, external_id := "e1", title := "t"
                 area := "A", status := .PRICE_REDUCED, price_aed := 100
                 price_per_sqft := none, content_hash := ("e1", 100, "t")
                 first_seen_at := 0, last_seen_at := 0 }],
             [{ listing_external_id := "e1", old_price_aed := 100
                new_price_aed := 105, change_pct := 5 }], 0, 1⟩ ∧
      upd.status = ListingStatus.ACTIVE := by
  obtain ⟨upd, heq, hneg, hpos, hsmall⟩ :=
    reconcile_price_change 1 0 [recDemoListing] recDemoScraped recDemoListing
      (by decide) (by decide) (by decide) (by decide)
  have hC : ((recDemoScraped.price_aed : ℚ) - (recDemoListing.price_aed : ℚ)) /
      (recDemoListing.price_aed : ℚ) * 100 = 5 := by
    simp only [recDemoScraped, recDemoListing]
    norm_num
  have hr5 : roundTo 2 (5 : ℚ) = 5 := by
    have h := roundTo_intCast 2 5
    norm_num at h
    exact h
  rw [hC, hr5] at heq
  refine ⟨upd, ?_, hpos (by rw [hC]; norm_num) (by rw [hC]; norm_num)⟩
  simp only [recDemoScraped, recDemoListing] at heq ⊢
  exact heq

/- ### Division-by-zero behaviour across the pipeline (C5) -/

/-- Python truthiness of the optional `prev_avg`: `None` and `0` are falsy
(the guard `if prev_avg else 0` of celery_app.py line 202). -/
def pyTruthy (o : Option ℤ) : Bool :=
  match o with
  | none => false
  | some a => decide (a ≠ 0)

/-- Aggregator percent-change (celery_app.py lines 198-202):
`(mean(prices) - prev_avg) / prev_avg * 100 if prev_avg else 0`. The division
raises (`Except.error`) iff its denominator is zero — unreachable, because
the truthiness guard already filtered out `None` and `0`. -/
def aggPriceChangePct (cur : ℚ) (prev_avg : Option ℤ) : Except Unit ℚ :=
  if pyTruthy prev_avg then
    match prev_avg with
    | some a =>
        if (a : ℚ) = 0 then .error ()
        else .ok ((cur - (a : ℚ)) / (a : ℚ) * 100)
    | none => .error ()
  else .ok 0

/-- Python `x or 1`: 0 is falsy, so a zero count is floored to 1. -/
def pyOrOne (n : ℤ) : ℤ := if n = 0 then 1 else n

/-- Aggregator velocity ratio (celery_app.py line 203):
`new_today / (prev_metric.new_listings_count or 1) if prev_metric else 1.0`. -/
def aggVelocityRatio (new_today : ℤ) (prev : Option ℤ) : Except Unit ℚ :=
  match prev with
  | some n =>
      if (pyOrOne n : ℚ) = 0 then .error ()
      else .ok ((new_today : ℚ) / (pyOrOne n : ℚ))
  | none => .ok 1

/-- The saturation division of the heat scorer (engine.py line 171): raises
iff the capacity is zero; the pipeline always passes the default 500. -/
def heatSaturationDiv (active capacity : ℚ) : Except Unit ℚ :=
  if capacity = 0 then .error () else .ok (active / capacity)

/-- A persisted listing whose stored price is 0. -/
def zeroPriceListing : Listing :=
  { competitor_id := 0, external_id := "e1", title := "t", area := "A"
    status := .ACTIVE, price_aed := 0, price_per_sqft := none
    content_hash := ("e1", 0, "t"), first_seen_at := 0, last_seen_at := 0 }

/-- A new observation of that listing with a differing price. -/
def zeroPriceScraped : Scraped :=
  { external_id := "e1", title := "t", area := "A", price_aed := 100
    price_per_sqft := none }

/-- C5 counterexample: the reconciler's percent-change computation
(celery_app.py lines 103-105) has no guard — observing a new price for a
persisted listing whose stored price is 0 raises ZeroDivisionError instead of
substituting a default. -/
theorem reconcile_zero_price_raises :
    reconcileOne 1 0 [zeroPriceListing] zeroPriceScraped = .error () := by
  unfold reconcileOne
  have hfind : findListing [zeroPriceListing] 0 zeroPriceScraped.external_id =
      some zeroPriceListing := by decide
  simp only [hfind]
  rw [if_pos (by decide), if_pos (by decide),
    if_pos (by simp [zeroPriceListing])]

lemma aggPriceChangePct_ok (cur : ℚ) (prev_avg : Option ℤ) :
    ∃ q, aggPriceChangePct cur prev_avg = .ok q := by
  rcases prev_avg with _ | a
  · exact ⟨0, rfl⟩
  · by_cases ha : a = 0
    · subst ha
      exact ⟨0, by simp [aggPriceChangePct, pyTruthy]⟩
    · have haq : ¬((a : ℚ) = 0) := by exact_mod_cast ha
      exact ⟨(cur - (a : ℚ)) / (a : ℚ) * 100,
        by simp [aggPriceChangePct, pyTruthy, ha, haq]⟩

lemma aggVelocityRatio_ok (new_today : ℤ) (prev : Option ℤ) :
    ∃ q, aggVelocityRatio new_today prev = .ok q := by
  rcases prev with _ | n
  · exact ⟨1, rfl⟩
  · have h : ¬((pyOrOne n : ℚ) = 0) := by
      unfold pyOrOne
      split
      · norm_num
      · rename_i hn
        exact_mod_cast hn
    exact ⟨(new_today : ℚ) / (pyOrOne n : ℚ), by simp [aggVelocityRatio, h]⟩

/-- C5 amended: the metric aggregator's two ratio computations never raise —
`price_change_pct` falls back to 0 when the previous average is absent or 0,
and the velocity denominator is floored at 1 — and the heat scorer's
saturation division cannot raise at the default capacity 500; but the
reconciler's percent-change division (counterexample above) can raise. -/
theorem agg_ratios_never_raise :
    (∀ (cur : ℚ) (prev_avg : Option ℤ), ∃ q, aggPriceChangePct cur prev_avg = .ok q) ∧
    (∀ (new_today : ℤ) (prev : Option ℤ), ∃ q, aggVelocityRatio new_today prev = .ok q) ∧
    (∀ active : ℚ, heatSaturationDiv active 500 = .ok (active / 500)) := by
  refine ⟨aggPriceChangePct_ok, aggVelocityRatio_ok, ?_⟩
  intro a
  rw [heatSaturationDiv, if_neg (by norm_num)]

/- ### Reconciliation idempotence (C6) -/

/-- All occurrences of one external_id in a batch carry the same hashed
fields (price and title): the sanity condition under which a batch has a
single fingerprint per listing. -/
def batchCoherent (batch : List Scraped) : Prop :=
  ∀ s1 ∈ batch, ∀ s2 ∈ batch,
    s1.external_id = s2.external_id → contentHash s1 = contentHash s2

/-- Forget the last_seen timestamp (the only field a second identical pass
may change). -/
def stripSeen (l : Listing) : Listing := { l with last_seen_at := 0 }

lemma keyMatches_iff {cid : ℕ} {eid : String} {l : Listing} :
    keyMatches cid eid l = true ↔ l.competitor_id = cid ∧ l.external_id = eid := by
  unfold keyMatches
  simp

lemma findListing_key {st : List Listing} {cid : ℕ} {eid : String} {l : Listing}
    (h : findListing st cid eid = some l) :
    l.competitor_id = cid ∧ l.external_id = eid :=
  keyMatches_iff.mp (List.find?_some h)

lemma find_update_self {st : List Listing} {cid : ℕ} {eid : String} {l : Listing}
    (h : findListing st cid eid = some l) {nl : Listing}
    (hk : keyMatches cid eid nl = true) :
    findListing (updateListing cid eid nl st) cid eid = some nl := by
  induction st with
  | nil => simp [findListing] at h
  | cons hd tl ih =>
    by_cases hm : keyMatches cid eid hd
    · unfold updateListing
      rw [if_pos hm]
      exact List.find?_cons_of_pos tl hk
    · unfold updateListing
      rw [if_neg hm]
      unfold findListing at h ⊢
      rw [List.find?_cons_of_neg tl hm] at h
      rw [List.find?_cons_of_neg _ hm]
      exact ih h

lemma find_update_other {cid : ℕ} {eid eid2 : String} (hne : eid ≠ eid2)
    {nl : Listing} (hk : nl.external_id = eid2) (st : List Listing) :
    findListing (updateListing cid eid2 nl st) cid eid = findListing st cid eid := by
  induction st with
  | nil => rfl
  | cons hd tl ih =>
    unfold updateListing
    by_cases hm : keyMatches cid eid2 hd
    · rw [if_pos hm]
      have hd_eid : hd.external_id = eid2 := (keyMatches_iff.mp hm).2
      have hne1 : ¬(hd.external_id = eid) := by
        rw [hd_eid]
        exact fun hcon => hne hcon.symm
      have hne2 : ¬(nl.external_id = eid) := by
        rw [hk]
        exact fun hcon => hne hcon.symm
      have h1 : ¬(keyMatches cid eid hd = true) := by
        rw [keyMatches_iff]
        exact fun hcon => hne1 hcon.2
      have h2 : ¬(keyMatches cid eid nl = true) := by
        rw [keyMatches_iff]
        exact fun hcon => hne2 hcon.2
      unfold findListing
      rw [List.find?_cons_of_neg _ h2, List.find?_cons_of_neg _ h1]
    · rw [if_neg hm]
      unfold findListing
      by_cases hh : keyMatches cid eid hd
      · rw [List.find?_cons_of_pos _ hh, List.find?_cons_of_pos _ hh]
      · rw [List.find?_cons_of_neg _ hh, List.find?_cons_of_neg _ hh]
        exact ih

lemma updateListing_length (cid : ℕ) (eid : String) (nl : Listing) :
    ∀ st : List Listing, (updateListing cid eid nl st).length = st.length := by
  intro st
  induction st with
  | nil => rfl
  | cons hd tl ih =>
    unfold updateListing
    split
    · rfl
    · simp only [List.length_cons, ih]

lemma updateListing_stripSeen {cid : ℕ} {eid : String} {l : Listing} :
    ∀ {st : List Listing}, findListing st cid eid = some l → ∀ t : ℤ,
    (updateListing cid eid { l with last_seen_at := t } st).map stripSeen =
      st.map stripSeen := by
  intro st
  induction st with
  | nil => intro h; simp [findListing] at h
  | cons hd tl ih =>
    intro h t
    by_cases hm : keyMatches cid eid hd
    · unfold findListing at h
      rw [List.find?_cons_of_pos tl hm] at h
      have hdl : hd = l := by injection h
      subst hdl
      unfold updateListing
      rw [if_pos hm]
      simp only [List.map_cons]
      rfl
    · unfold findListing at h
      rw [List.find?_cons_of_neg tl hm] at h
      unfold updateListing
      rw [if_neg hm]
      simp only [List.map_cons]
      rw [ih h t]

/-- When the persisted fingerprint matches the observation, the reconciler
only refreshes last_seen: no event, no counters. -/
lemma reconcileOne_hash_match {now : ℤ} {cid : ℕ} {st : List Listing}
    {sc : Scraped} {ex : Listing}
    (hf : findListing st cid sc.external_id = some ex)
    (hh : ex.content_hash = contentHash sc) :
    reconcileOne now cid st sc =
      .ok ⟨updateListing cid sc.external_id { ex with last_seen_at := now } st,
           [], 0, 0⟩ := by
  unfold reconcileOne
  simp only [hf]
  rw [if_neg (by simp [hh])]

/-- A reconciliation step leaves the lookup of every other external_id
unchanged. -/
lemma reconcileOne_find_other {now : ℤ} {cid : ℕ} {st : List Listing}
    {sc : Scraped} {r1 : RecResult} (h : reconcileOne now cid st sc = .ok r1)
    {eid : String} (hne : eid ≠ sc.external_id) :
    findListing r1.store cid eid = findListing st cid eid := by
  unfold reconcileOne at h
  cases hf : findListing st cid sc.external_id with
  | some ex =>
    simp only [hf] at h
    have hex : ex.external_id = sc.external_id := (findListing_key hf).2
    split at h
    · split at h
      · split at h
        · exact absurd h (by simp)
        · simp only [Except.ok.injEq] at h
          subst h
          exact find_update_other hne (by simp [hex]) st
      · simp only [Except.ok.injEq] at h
        subst h
        exact find_update_other hne (by simp [hex]) st
    · simp only [Except.ok.injEq] at h
      subst h
      exact find_update_other hne (by simp [hex]) st
  | none =>
    simp only [hf] at h
    simp only [Except.ok.injEq] at h
    subst h
    show findListing (st ++ [_]) cid eid = findListing st cid eid
    unfold findListing
    rw [List.find?_append]
    have hnil : List.find? (keyMatches cid eid)
        [{ competitor_id := cid, external_id := sc.external_id
           title := sc.title, area := sc.area, status := .ACTIVE
           price_aed := sc.price_aed, price_per_sqft := sc.price_per_sqft
           content_hash := contentHash sc, first_seen_at := now
           last_seen_at := now }] = none := by
      have : ¬(keyMatches cid eid
          { competitor_id := cid, external_id := sc.external_id
            title := sc.title, area := sc.area, status := .ACTIVE
            price_aed := sc.price_aed, price_per_sqft := sc.price_per_sqft
            content_hash := contentHash sc, first_seen_at := now
            last_seen_at := now } = true) := by
        rw [keyMatches_iff]
        exact fun hcon => hne hcon.2.symm
      simp [List.find?, this]
    rw [hnil]
    exact Option.or_none

/-- After one reconciliation step, the observed external_id is stored with
the observed fingerprint. -/
lemma reconcileOne_establishes {now : ℤ} {cid : ℕ} {st : List Listing}
    {sc : Scraped} {r1 : RecResult} (h : reconcileOne now cid st sc = .ok r1) :
    ∃ l, findListing r1.store cid sc.external_id = some l ∧
      l.content_hash = contentHash sc := by
  unfold reconcileOne at h
  cases hf : findListing st cid sc.external_id with
  | some ex =>
    simp only [hf] at h
    have hex := findListing_key hf
    split at h
    · split at h
      · split at h
        · exact absurd h (by simp)
        · simp only [Except.ok.injEq] at h
          subst h
          exact ⟨_, find_update_self hf
            (keyMatches_iff.mpr ⟨by simp [hex.1], by simp [hex.2]⟩), by simp⟩
      · simp only [Except.ok.injEq] at h
        subst h
        exact ⟨_, find_update_self hf
          (keyMatches_iff.mpr ⟨by simp [hex.1], by simp [hex.2]⟩), by simp⟩
    · rename_i hhash
      have hhe : ex.content_hash = contentHash sc := not_not.mp (by simpa using hhash)
      simp only [Except.ok.injEq] at h
      subst h
      exact ⟨_, find_update_self hf
        (keyMatches_iff.mpr ⟨by simp [hex.1], by simp [hex.2]⟩), by simp [hhe]⟩
  | none =>
    simp only [hf] at h
    simp only [Except.ok.injEq] at h
    subst h
    refine ⟨{ competitor_id := cid, external_id := sc.external_id
              title := sc.title, area := sc.area, status := .ACTIVE
              price_aed := sc.price_aed, price_per_sqft := sc.price_per_sqft
              content_hash := contentHash sc, first_seen_at := now
              last_seen_at := now }, ?_, rfl⟩
    unfold findListing
    rw [List.find?_append]
    unfold findListing at hf
    rw [hf]
    have hk : keyMatches cid sc.external_id
        { competitor_id := cid, external_id := sc.external_id
          title := sc.title, area := sc.area, status := .ACTIVE
          price_aed := sc.price_aed, price_per_sqft := sc.price_per_sqft
          content_hash := contentHash sc, first_seen_at := now
          last_seen_at := now } = true := keyMatches_iff.mpr ⟨rfl, rfl⟩
    simp [List.find?, hk]

/-- Processing more records preserves "this key is stored with hash H", as
long as every batch occurrence of the key carries hash H. -/
lemma reconcileBatch_hash_preserved {now : ℤ} {cid : ℕ} {eid : String}
    {H : Fingerprint} :
    ∀ (batch : List Scraped) (st : List Listing) (r : RecResult),
    reconcileBatch now cid st batch = .ok r →
    (∀ s ∈ batch, s.external_id = eid → contentHash s = H) →
    (∃ l, findListing st cid eid = some l ∧ l.content_hash = H) →
    ∃ l2, findListing r.store cid eid = some l2 ∧ l2.content_hash = H := by
  intro batch
  induction batch with
  | nil =>
    intro st r hr hall hex
    unfold reconcileBatch at hr
    simp only [Except.ok.injEq] at hr
    subst hr
    exact hex
  | cons sc rest ih =>
    intro st r hr hall hex
    obtain ⟨l, hl, hlh⟩ := hex
    unfold reconcileBatch at hr
    cases h1 : reconcileOne now cid st sc with
    | error e => simp only [h1] at hr; exact absurd hr (by simp)
    | ok r1 =>
      simp only [h1] at hr
      cases h2 : reconcileBatch now cid r1.store rest with
      | error e => simp only [h2] at hr; exact absurd hr (by simp)
      | ok r2 =>
        simp only [h2, Except.ok.injEq] at hr
        subst hr
        apply ih r1.store r2 h2 (fun s hs he => hall s (List.mem_cons_of_mem _ hs) he)
        by_cases he : sc.external_id = eid
        · have hfe : findListing st cid sc.external_id = some l := by
            rw [he]
            exact hl
          have hsc : contentHash sc = H := hall sc (List.mem_cons_self _ _) he
          have hmatch : l.content_hash = contentHash sc := by rw [hlh, hsc]
          have hstep := @reconcileOne_hash_match now _ _ _ _ hfe hmatch
          rw [h1] at hstep
          simp only [Except.ok.injEq] at hstep
          rw [hstep]
          refine ⟨{ l with last_seen_at := now }, ?_, by simp [hlh]⟩
          rw [← he]
          exact find_update_self hfe (keyMatches_iff.mpr
            ⟨by simp [(findListing_key hfe).1], by simp [(findListing_key hfe).2]⟩)
        · refine ⟨l, ?_, hlh⟩
          rw [reconcileOne_find_other h1 (fun hcon => he hcon.symm)]
          exact hl

/-- After the first pass of a coherent batch, every observed external_id is
stored with the observed fingerprint. -/
lemma reconcileBatch_hash_after {now : ℤ} {cid : ℕ} :
    ∀ (batch : List Scraped) (st : List Listing) (r : RecResult),
    batchCoherent batch →
    reconcileBatch now cid st batch = .ok r →
    ∀ s ∈ batch, ∃ l, findListing r.store cid s.external_id = some l ∧
      l.content_hash = contentHash s := by
  intro batch
  induction batch with
  | nil =>
    intro st r _ _ s hs
    simp at hs
  | cons sc rest ih =>
    intro st r hc hr s hs
    unfold reconcileBatch at hr
    cases h1 : reconcileOne now cid st sc with
    | error e => simp only [h1] at hr; exact absurd hr (by simp)
    | ok r1 =>
      simp only [h1] at hr
      cases h2 : reconcileBatch now cid r1.store rest with
      | error e => simp only [h2] at hr; exact absurd hr (by simp)
      | ok r2 =>
        simp only [h2, Except.ok.injEq] at hr
        subst hr
        rcases List.mem_cons.mp hs with hs0 | hsrest
        · subst hs0
          exact reconcileBatch_hash_preserved rest r1.store r2 h2
            (fun s2 hs2 he2 =>
              hc s2 (List.mem_cons_of_mem _ hs2) s (List.mem_cons_self _ _) he2)
            (reconcileOne_establishes h1)
        · exact ih r1.store r2
            (fun s1 ha1 s2 ha2 he => hc s1 (List.mem_cons_of_mem _ ha1) s2
              (List.mem_cons_of_mem _ ha2) he)
            h2 s hsrest

/-- A pass over a batch whose every record is already stored with a matching
fingerprint only refreshes last_seen: no events, no new rows, no updated
counter, and the store is unchanged up to last_seen. -/
lemma reconcileBatch_all_match {now : ℤ} {cid : ℕ} :
    ∀ (batch : List Scraped) (st : List Listing),
    (∀ s ∈ batch, ∃ l, findListing st cid s.external_id = some l ∧
        l.content_hash = contentHash s) →
    ∃ st2, reconcileBatch now cid st batch = .ok ⟨st2, [], 0, 0⟩ ∧
      st2.length = st.length ∧ st2.map stripSeen = st.map stripSeen := by
  intro batch
  induction batch with
  | nil =>
    intro st _
    exact ⟨st, rfl, rfl, rfl⟩
  | cons sc rest ih =>
    intro st hall
    obtain ⟨l, hf, hh⟩ := hall sc (List.mem_cons_self _ _)
    have h1 := @reconcileOne_hash_match now _ _ _ _ hf hh
    have hkey := findListing_key hf
    have hall2 : ∀ s ∈ rest,
        ∃ l2, findListing (updateListing cid sc.external_id
          { l with last_seen_at := now } st) cid s.external_id = some l2 ∧
          l2.content_hash = contentHash s := by
      intro s hs
      by_cases he : s.external_id = sc.external_id
      · obtain ⟨l2, hf2, hh2⟩ := hall s (List.mem_cons_of_mem _ hs)
        rw [he] at hf2
        have hl2 : l2 = l := by
          rw [hf] at hf2
          injection hf2 with hx
          exact hx.symm
        rw [hl2] at hh2
        have hk : keyMatches cid sc.external_id { l with last_seen_at := now } = true :=
          keyMatches_iff.mpr ⟨by simp [hkey.1], by simp [hkey.2]⟩
        refine ⟨{ l with last_seen_at := now }, ?_, by simpa using hh2⟩
        rw [he]
        exact find_update_self hf hk
      · obtain ⟨l2, hf2, hh2⟩ := hall s (List.mem_cons_of_mem _ hs)
        refine ⟨l2, ?_, hh2⟩
        rw [find_update_other he (by simp [hkey.2]) st]
        exact hf2
    obtain ⟨st2, h2, hlen, hstrip⟩ := ih _ hall2
    refine ⟨st2, ?_, ?_, ?_⟩
    · unfold reconcileBatch
      simp only [h1, h2]
      simp
    · rw [hlen]
      exact updateListing_length _ _ _ st
    · rw [hstrip]
      exact updateListing_stripSeen hf now

/-- C6 amended: reconciliation is idempotent on an unchanged coherent batch
(every external_id carries a single price/title within the batch — in
particular any batch with pairwise-distinct external_ids). A second pass
right after a successful first pass produces no PriceChangeEvents, no new
rows, no updated counter, and changes the store only in last_seen. -/
theorem reconcile_batch_idempotent (now1 now2 : ℤ) (cid : ℕ)
    (st st1 : List Listing) (batch : List Scraped) (evs1 : List PriceHistory)
    (n1 u1 : ℕ)
    (hc : batchCoherent batch)
    (h1 : reconcileBatch now1 cid st batch = .ok ⟨st1, evs1, n1, u1⟩) :
    ∃ st2, reconcileBatch now2 cid st1 batch = .ok ⟨st2, [], 0, 0⟩ ∧
      st2.length = st1.length ∧ st2.map stripSeen = st1.map stripSeen := by
  apply reconcileBatch_all_match
  intro s hs
  exact reconcileBatch_hash_after batch st ⟨st1, evs1, n1, u1⟩ hc h1 s hs

/-- The PriceHistory rows of a reconciliation result ([] on an exception). -/
def recEvents (r : Except Unit RecResult) : List PriceHistory :=
  match r with
  | .ok x => x.events
  | .error _ => []

/-- The listing table of a reconciliation result ([] on an exception). -/
def recStore (r : Except Unit RecResult) : List Listing :=
  match r with
  | .ok x => x.store
  | .error _ => []

/-- A batch holding the same external_id twice at two different prices —
the scraper interface allows in-batch duplicates (spec §6). -/
def dupBatch : List Scraped :=
  [{ external_id := "e1", title := "t", area := "A", price_aed := 100
     price_per_sqft := none },
   { external_id := "e1", title := "t", area := "A", price_aed := 200
     price_per_sqft := none }]

/-- C6 counterexample: reconciling `dupBatch` from an empty store emits one
event, and reconciling the *same unchanged batch* again immediately emits two
further PriceChangeEvents (the stored price flip-flops 200 → 100 → 200), so
the second pass is not event-free. -/
theorem reconcile_idem_claim_false :
    (recEvents (reconcileBatch 0 0 [] dupBatch)).length = 1 ∧
    (recEvents (reconcileBatch 1 0
      (recStore (reconcileBatch 0 0 [] dupBatch)) dupBatch)).length = 2 := by
  constructor <;> decide

/-- A single-record batch for the C6 witness. -/
def idemBatch : List Scraped :=
  [{ external_id := "e1", title := "t", area := "A", price_aed := 100
     price_per_sqft := none }]

/-- The store produced by the first pass of `idemBatch` over an empty
store. -/
def idemStore : List Listing :=
  [{ competitor_id := 0, external_id := "e1", title := "t", area := "A"
     status := .ACTIVE, price_aed := 100, price_per_sqft := none
     content_hash := ("e1", 100, "t"), first_seen_at := 0, last_seen_at := 0 }]

/-- Witness for C6 (amended): the second pass over the singleton batch adds
nothing. -/
theorem reconcile_batch_idempotent_witness :
    ∃ st2, reconcileBatch 1 0 idemStore idemBatch = .ok ⟨st2, [], 0, 0⟩ ∧
      st2.length = idemStore.length ∧
      st2.map stripSeen = idemStore.map stripSeen :=
  reconcile_batch_idempotent 0 1 0 [] idemStore idemBatch [] 1 0
    (by
      intro s1 hs1 s2 hs2 he
      rw [idemBatch, List.mem_singleton] at hs1 hs2
      subst hs1
      subst hs2
      rfl)
    (by rfl)

/- ### Retention sweeper (`cleanup_old_data`, celery_app.py lines 247-264) -/

/-- One day of model time (time is measured in seconds, as timedeltas are). -/
def DAY : ℤ := 86400

/-- A `ScrapeJob` row, restricted to the one field the sweeper reads. -/
structure ScrapeJob where
  created_at : ℤ
deriving DecidableEq, Repr

/-- The bulk listing update of celery_app.py lines 258-261, applied to one
row: ACTIVE listings last seen strictly more than 14 days ago become
REMOVED. -/
def sweepListing (now : ℤ) (l : Listing) : Listing :=
  if l.last_seen_at < now - 14 * DAY ∧ l.status = ListingStatus.ACTIVE then
    { l with status := ListingStatus.REMOVED }
  else l

/-- `cleanup_old_data` (celery_app.py lines 247-264): deletes ScrapeJobs
older than 30 days, flips stale ACTIVE listings to REMOVED, and emits no
PriceHistory rows (the function touches no other table). -/
def cleanup_old_data (now : ℤ) (jobs : List ScrapeJob)
    (listings : List Listing) :
    List ScrapeJob × List Listing × List PriceHistory :=
  (jobs.filter (fun j => decide (now - 30 * DAY ≤ j.created_at)),
   listings.map (sweepListing now),
   [])

lemma sweepListing_idem (now : ℤ) (l : Listing) :
    sweepListing now (sweepListing now l) = sweepListing now l := by
  by_cases h : l.last_seen_at < now - 14 * DAY ∧ l.status = ListingStatus.ACTIVE
  · have h1 : sweepListing now l = { l with status := ListingStatus.REMOVED } := by
      unfold sweepListing
      rw [if_pos h]
    rw [h1]
    unfold sweepListing
    rw [if_neg (by simp)]
  · have h1 : sweepListing now l = l := by
      unfold sweepListing
      rw [if_neg h]
    rw [h1, h1]

/-- C9: after a sweeper run no PriceChangeEvent was emitted, every ACTIVE
listing whose last_seen is older than 14 days is REMOVED, every ACTIVE
listing seen within 14 days is untouched, and a second run with no newly
stale data changes nothing. -/
theorem sweeper_spec (now : ℤ) (jobs : List ScrapeJob)
    (listings : List Listing) :
    (cleanup_old_data now jobs listings).2.2 = [] ∧
    (cleanup_old_data now jobs listings).2.1 = listings.map (sweepListing now) ∧
    (∀ l ∈ listings, l.status = ListingStatus.ACTIVE →
      l.last_seen_at < now - 14 * DAY →
      (sweepListing now l).status = ListingStatus.REMOVED) ∧
    (∀ l ∈ listings, l.status = ListingStatus.ACTIVE →
      now - 14 * DAY ≤ l.last_seen_at → sweepListing now l = l) ∧
    cleanup_old_data now (cleanup_old_data now jobs listings).1
        ((cleanup_old_data now jobs listings).2.1) =
      ((cleanup_old_data now jobs listings).1,
       (cleanup_old_data now jobs listings).2.1, []) := by
  refine ⟨rfl, rfl, ?_, ?_, ?_⟩
  · intro l _ hs ht
    unfold sweepListing
    rw [if_pos ⟨ht, hs⟩]
  · intro l _ hs ht
    unfold sweepListing
    rw [if_neg]
    rintro ⟨hlt, -⟩
    exact absurd hlt (not_lt.mpr ht)
  · unfold cleanup_old_data
    simp only [Prod.mk.injEq]
    refine ⟨?_, ?_, trivial⟩
    · apply List.filter_eq_self.mpr
      intro j hj
      exact (List.mem_filter.mp hj).2
    · rw [List.map_map]
      exact List.map_congr_left (fun l _ => sweepListing_idem now l)

/-- A listing last seen 15 days before the witness time. -/
def staleListing : Listing :=
  { competitor_id := 0, external_id := "e2", title := "t", area := "A"
    status := .ACTIVE, price_aed := 100, price_per_sqft := none
    content_hash := ("e2", 100, "t"), first_seen_at := 0, last_seen_at := 0 }

/-- A listing last seen 13 days before the witness time. -/
def freshListing : Listing :=
  { competitor_id := 0, external_id := "e3", title := "t", area := "A"
    status := .ACTIVE, price_aed := 100, price_per_sqft := none
    content_hash := ("e3", 100, "t"), first_seen_at := 0
    last_seen_at := 2 * DAY }

/-- Witness for C9 at time 15 days: the 15-day-old ACTIVE listing is
REMOVED, the 13-day-old one is untouched. -/
theorem sweeper_spec_witness :
    (sweepListing (15 * DAY) staleListing).status = ListingStatus.REMOVED ∧
    sweepListing (15 * DAY) freshListing = freshListing :=
  ⟨(sweeper_spec (15 * DAY) [] [staleListing, freshListing]).2.2.1 staleListing
      (List.mem_cons_self _ _) rfl (by decide),
   (sweeper_spec (15 * DAY) [] [staleListing, freshListing]).2.2.2.1 freshListing
      (List.mem_cons_of_mem _ (List.mem_cons_self _ _)) rfl (by decide)⟩

/- ### Metric aggregation and the (area, property_type, date) unique
constraint (C4) -/

/-- `PropertyType` enum from `models.py`. -/
inductive PropertyType where
  | VILLA | APARTMENT | TOWNHOUSE | PENTHOUSE | DUPLEX
deriving DecidableEq, Repr

/-- A `MarketMetric` row (models.py lines 126-159), with the fields the
aggregator writes. `property_type = none` is the SQL NULL "all types" row. -/
structure MetricRow where
  area : String
  property_type : Option PropertyType
  date : ℤ
  avg_price_aed : ℤ
  median_price_aed : ℤ
  avg_price_per_sqft : Option ℚ
  min_price_aed : ℤ
  max_price_aed : ℤ
  new_listings_count : ℤ
  total_active_listings : ℤ
  heat_index : ℚ
deriving DecidableEq, Repr

/-- SQL comparison for the nullable key column of the unique constraint
`uq_metric_area_date` (models.py line 157): a NULL property_type never
compares equal, so rows with NULL in the key are never in conflict
(PostgreSQL's default NULLS DISTINCT semantics; `DATABASE_URL` in config.py
is a postgresql URL). -/
def sqlNullableEq (a b : Option PropertyType) : Bool :=
  match a, b with
  | some x, some y => decide (x = y)
  | _, _ => false

/-- Does an existing row conflict with the new row under
`uq_metric_area_date`? -/
def metricConflict (r m : MetricRow) : Bool :=
  decide (r.area = m.area) && sqlNullableEq r.property_type m.property_type &&
    decide (r.date = m.date)

/-- The store's insert: rejected (`Except.error`, an IntegrityError aborting
the task) iff the unique constraint fires, appended otherwise. The code has
no upsert or conflict handling of its own (celery_app.py lines 207-222). -/
def insertMetric (tbl : List MetricRow) (m : MetricRow) :
    Except Unit (List MetricRow) :=
  if tbl.any (fun r => metricConflict r m) then .error ()
  else .ok (tbl ++ [m])

/-- Python `int()` on a rational: truncation toward zero. -/
def pyInt (q : ℚ) : ℤ := if 0 ≤ q then ⌊q⌋ else -⌊-q⌋

/-- `statistics.mean` over integer prices (exact rational). -/
def listMean (xs : List ℤ) : ℚ := (xs.sum : ℚ) / xs.length

/-- `statistics.mean` over rationals. -/
def listMeanQ (xs : List ℚ) : ℚ := xs.sum / xs.length

/-- Insertion into a sorted list (ascending). -/
def insertSorted (x : ℤ) : List ℤ → List ℤ
  | [] => [x]
  | y :: ys => if x ≤ y then x :: y :: ys else y :: insertSorted x ys

/-- Sort ascending (insertion sort). -/
def sortZ (xs : List ℤ) : List ℤ := xs.foldr insertSorted []

/-- `statistics.median`: middle of the sorted list, or the mean of the two
middles for even length. The empty case (which raises in Python) is
unreachable behind the aggregator's no-active-listings skip. -/
def listMedian (xs : List ℤ) : ℚ :=
  let s := sortZ xs
  let n := s.length
  if n % 2 = 1 then ((s.getD (n / 2) 0 : ℤ) : ℚ)
  else (((s.getD (n / 2 - 1) 0 : ℤ) : ℚ) + ((s.getD (n / 2) 0 : ℤ) : ℚ)) / 2

/-- Python `min` over a nonempty list (0 for the unreachable empty case). -/
def listMin (xs : List ℤ) : ℤ :=
  match xs with
  | [] => 0
  | x :: rest => rest.foldl min x

/-- Python `max` over a nonempty list (0 for the unreachable empty case). -/
def listMax (xs : List ℤ) : ℤ :=
  match xs with
  | [] => 0
  | x :: rest => rest.foldl max x

/-- The previous-period metric: rows of this area with
`property_type IS NULL`, ordered by date desc, first — i.e. the row with the
greatest date. SQL fixes no order among equal dates; the model keeps the
earliest-inserted one. -/
def latestMetric (tbl : List MetricRow) (area : String) : Option MetricRow :=
  (tbl.filter (fun r => decide (r.area = area) &&
      decide (r.property_type = none))).foldl
    (fun acc r =>
      match acc with
      | none => some r
      | some b => if b.date < r.date then some r else some b) none

/-- One area's iteration of `compute_daily_metrics` (celery_app.py lines
178-220): collect the ACTIVE listings of the area, skip if none, compute the
price statistics, the trailing-24h new-listing count, the guarded ratios
(`aggPriceChangePct`, `aggVelocityRatio` above), the heat index at default
capacity, and insert one row keyed (area, NULL, now). `now` is the hour
bucket (`utcnow` truncated to the hour). -/
def computeDailyMetricsArea (now : ℤ) (area : String)
    (listings : List Listing) (tbl : List MetricRow) :
    Except Unit (List MetricRow) :=
  let active := listings.filter (fun l =>
    decide (l.area = area) && decide (l.status = ListingStatus.ACTIVE))
  if active.isEmpty then .ok tbl
  else
    let prices := active.map (fun l => l.price_aed)
    let sqft := (active.filterMap (fun l => l.price_per_sqft)).filter
      (fun q => decide (q ≠ 0))
    let newToday := ((active.filter
      (fun l => decide (now - DAY ≤ l.first_seen_at))).length : ℤ)
    let prev := latestMetric tbl area
    match aggPriceChangePct (listMean prices)
        (prev.map (fun p => p.avg_price_aed)) with
    | .error e => .error e
    | .ok pcp =>
        match aggVelocityRatio newToday
            (prev.map (fun p => p.new_listings_count)) with
        | .error e => .error e
        | .ok vr =>
            let row : MetricRow :=
              { area := area, property_type := none, date := now
                avg_price_aed := pyInt (listMean prices)
                median_price_aed := pyInt (listMedian prices)
                avg_price_per_sqft :=
                  if sqft.isEmpty then none else some (roundTo 2 (listMeanQ sqft))
                min_price_aed := listMin prices
                max_price_aed := listMax prices
                new_listings_count := newToday
                total_active_listings := (active.length : ℤ)
                heat_index := compute_heat_index vr pcp (active.length : ℚ) 500 }
            insertMetric tbl row

lemma insertMetric_ok (tbl : List MetricRow) (m : MetricRow)
    (h : ∀ r ∈ tbl, metricConflict r m = false) :
    insertMetric tbl m = .ok (tbl ++ [m]) := by
  unfold insertMetric
  rw [if_neg]
  intro hc
  rw [List.any_eq_true] at hc
  obtain ⟨r, hr, hcr⟩ := hc
  rw [h r hr] at hcr
  exact Bool.false_ne_true hcr

/-- A successful aggregation run appends exactly one (area, NULL, now) row,
as long as the area has an active listing and no stored row conflicts. -/
lemma computeDailyMetricsArea_shape (now : ℤ) (area : String)
    (listings : List Listing) (tbl : List MetricRow)
    (hact : (listings.filter (fun l => decide (l.area = area) &&
      decide (l.status = ListingStatus.ACTIVE))).isEmpty = false)
    (hnoconf : ∀ r ∈ tbl,
      (decide (r.area = area) && sqlNullableEq r.property_type none &&
        decide (r.date = now)) = false) :
    ∃ row, computeDailyMetricsArea now area listings tbl = .ok (tbl ++ [row]) ∧
      row.area = area ∧ row.property_type = none ∧ row.date = now := by
  unfold computeDailyMetricsArea
  rw [if_neg (by simp [hact])]
  obtain ⟨pcp, hpcp⟩ := aggPriceChangePct_ok
    (listMean ((listings.filter (fun l => decide (l.area = area) &&
      decide (l.status = ListingStatus.ACTIVE))).map (fun l => l.price_aed)))
    ((latestMetric tbl area).map (fun p => p.avg_price_aed))
  simp only [hpcp]
  obtain ⟨vr, hvr⟩ := aggVelocityRatio_ok
    (((listings.filter (fun l => decide (l.area = area) &&
      decide (l.status = ListingStatus.ACTIVE))).filter
        (fun l => decide (now - DAY ≤ l.first_seen_at))).length : ℤ)
    ((latestMetric tbl area).map (fun p => p.new_listings_count))
  simp only [hvr]
  refine ⟨_, insertMetric_ok tbl _ ?_, rfl, rfl, rfl⟩
  intro r hr
  simpa [metricConflict] using hnoconf r hr

/-- The concrete active listing for the C4 run. -/
def c4Listing : Listing :=
  { competitor_id := 0, external_id := "e1", title := "t", area := "A"
    status := .ACTIVE, price_aed := 100, price_per_sqft := none
    content_hash := ("e1", 100, "t"), first_seen_at := 0, last_seen_at := 0 }

/-- The metric table of a normal aggregation return ([] on an exception). -/
def okMetrics (e : Except Unit (List MetricRow)) : List MetricRow :=
  match e with
  | .ok t => t
  | .error _ => []

/-- C4 failing run: invoking the aggregation twice for the same area within
the same hour bucket leaves TWO rows keyed (A, NULL, 0) — the second insert
is not rejected, because the unique constraint's NULL property_type never
compares equal (NULLS DISTINCT), and the code neither upserts nor checks. -/
theorem metric_duplicate_rows :
    ((okMetrics (computeDailyMetricsArea 0 "A" [c4Listing]
        (okMetrics (computeDailyMetricsArea 0 "A" [c4Listing] [])))).countP
      (fun r => decide (r.area = "A") && decide (r.property_type = none) &&
        decide (r.date = 0))) = 2 := by
  obtain ⟨r1, h1, ha1, hp1, hd1⟩ :=
    computeDailyMetricsArea_shape 0 "A" [c4Listing] [] (by rfl) (by simp)
  rw [List.nil_append] at h1
  obtain ⟨r2, h2, ha2, hp2, hd2⟩ :=
    computeDailyMetricsArea_shape 0 "A" [c4Listing] [r1] (by rfl)
      (by
        intro r hr
        rw [List.mem_singleton] at hr
        subst hr
        simp [hp1, sqlNullableEq])
  rw [h1]
  show ((okMetrics (computeDailyMetricsArea 0 "A" [c4Listing]
      (okMetrics (.ok [r1])))).countP _) = 2
  rw [show okMetrics (.ok [r1]) = [r1] from rfl, h2]
  show ([r1] ++ [r2]).countP _ = 2
  simp [List.countP_cons, ha1, hp1, hd1, ha2, hp2, hd2]

end BIMarket
